import Mathlib

/-!
Shallow embedding of the scheduling conflict-resolution core of the
whatsapp-ai-agent repository: the time normalizer
(`GoogleCalendarConnector._ensure_iso_format`), the smart free-slot search
(`TimeConverter.get_smart_alternative_times`), calendar event creation with
conflict checking (`GoogleCalendarConnector.create_event`), action-plan
validation (`ActionPlanner.plan` / `validate_calendar_actions`), and the
per-requester conflict-resolution dialog of `main.py`.

Strings are modelled as `List Char`, instants as `Int` minutes on a common
axis, and the external collaborators (calendar API, LLM classifier,
message parser) as explicit parameters describing their observable
outcomes.
-/

abbrev Chars := List Char

def strOf (s : String) : Chars := s.toList

/-- Python truthiness of an optional string parameter: `None` and the empty
string are falsy. -/
def truthyOpt : Option Chars → Bool
  | none => false
  | some s => !s.isEmpty

/-- Decimal rendering of a natural number, for the f-string messages. -/
def natStr (n : Nat) : Chars := (Nat.repr n).toList

/-- The ASCII single-quote character used in rendered messages. -/
def squote : Char := Char.ofNat 39

/-- Equality of modelled fallible results is decidable, so concrete runs
can be checked by evaluation. -/
def exceptDecEq {ε α : Type} [DecidableEq ε] [DecidableEq α] :
    DecidableEq (Except ε α)
  | .error x, .error y =>
    if h : x = y then isTrue (h ▸ rfl)
    else isFalse (fun hc => h (by injection hc))
  | .error _, .ok _ => isFalse (fun hc => Except.noConfusion hc)
  | .ok _, .error _ => isFalse (fun hc => Except.noConfusion hc)
  | .ok x, .ok y =>
    if h : x = y then isTrue (h ▸ rfl)
    else isFalse (fun hc => h (by injection hc))

instance {ε α : Type} [DecidableEq ε] [DecidableEq α] : DecidableEq (Except ε α) :=
  exceptDecEq

namespace CalendarApi

/-- Python slice `s[-n:]`: the last `min n (length s)` characters. -/
def lastN (s : Chars) (n : Nat) : Chars := s.drop (s.length - n)

/-- Python `s.endswith('Z')`. -/
def endsWithZ (s : Chars) : Bool := s.getLast? == some 'Z'

/-- The timezone-marker test of `_ensure_iso_format`:
`start_time.endswith('Z') or '+' in start_time or '-' in start_time[-6:]`. -/
def hasTzMarker (s : Chars) : Bool :=
  endsWithZ s || s.contains '+' || (lastN s 6).contains '-'

/-- One arm of `_ensure_iso_format`, applied symmetrically to the start and
end strings: keep the string when it already carries a timezone marker,
append a `Z` when it contains a `T` (date-time without zone), otherwise
return it unchanged (bare date). -/
def formatOne (s : Chars) : Chars :=
  if hasTzMarker s then s
  else if s.contains 'T' then
    (if endsWithZ s then s else s ++ ['Z'])
  else s

/-- `GoogleCalendarConnector._ensure_iso_format`: raises `ValueError` when
either input is falsy (empty), otherwise formats both strings. -/
def ensure_iso_format (start_time end_time : Chars) : Except Chars (Chars × Chars) :=
  if start_time.isEmpty || end_time.isEmpty then
    .error (strOf "Both start_time and end_time must be provided")
  else
    .ok (formatOne start_time, formatOne end_time)

/-- One existing calendar event as returned by `_check_conflicts_sync`:
id, summary, start and end strings. -/
structure CalEvent where
  id : Chars
  summary : Chars
  start : Chars
  stop : Chars
deriving DecidableEq

/-- The observable outcome of `GoogleCalendarConnector.check_conflicts`:
a status string, the conflict flag and the full list of overlapping
events. -/
structure CheckResult where
  status : Chars
  has_conflicts : Bool
  conflicts : List CalEvent
  count : Nat
deriving DecidableEq

/-- The observable outcome of the Google API insert call performed by
`_create_event_sync`. -/
inductive InsertOutcome where
  | ok (ev : CalEvent)
  | fail (msg : Chars)
deriving DecidableEq

/-- The dictionary returned by `create_event`, with an explicit flag
recording whether the path through `_create_event_sync` (the calendar
insert) was reached. -/
structure CreateEventResult where
  status : Chars
  message : Chars
  conflicts : List CalEvent
  insertAttempted : Bool
deriving DecidableEq

/-- `GoogleCalendarConnector.create_event`: when conflict checking is
requested and the check succeeds with conflicts, return a conflict result
without touching the calendar; otherwise normalize the times and run the
insert. The conflict-check outcome and the insert outcome are inputs,
standing for the external calendar collaborator. -/
def create_event (check_for_conflicts : Bool) (check : CheckResult)
    (insertApi : InsertOutcome) (start_time end_time : Chars) :
    Except Chars CreateEventResult :=
  if check_for_conflicts && (check.status == strOf "success") && check.has_conflicts then
    .ok { status := strOf "conflict"
          message := strOf "Found " ++ natStr check.count ++
            strOf " conflicting events in the specified time range"
          conflicts := check.conflicts
          insertAttempted := false }
  else
    match ensure_iso_format start_time end_time with
    | .error m => .error m
    | .ok _ =>
      match insertApi with
      | .ok _ => .ok { status := strOf "success"
                       message := strOf "Event created successfully"
                       conflicts := []
                       insertAttempted := true }
      | .fail m => .ok { status := strOf "error"
                         message := strOf "Failed to create event: " ++ m
                         conflicts := []
                         insertAttempted := true }

end CalendarApi

namespace TimeUtils

/-- A closed-open time interval, in minutes on a common axis. -/
abbrev Iv := Int × Int

/-- The overlap test of the slot-search loop in
`TimeConverter.get_smart_alternative_times`:
`current_time < busy_end and slot_end > busy_start`. -/
def overlapsBusy (b : Iv) (s e : Int) : Bool :=
  decide (s < b.2) && decide (e > b.1)

/-- The first busy period, in list order, that overlaps candidate `[s, e)`
(the inner `for` loop breaks at the first hit). -/
def firstConflict (busy : List Iv) (s e : Int) : Option Iv :=
  busy.find? (fun b => overlapsBusy b s e)

/-- The `while current_time + duration <= business_end_time` loop of
`get_smart_alternative_times`. A free candidate is recorded and the cursor
advances by 30 minutes (stopping once 5 slots are collected); a conflicting
candidate advances the cursor to the end of the first conflicting busy
period. The `fuel` argument bounds the number of iterations; `slotFuel`
below supplies enough fuel for the loop to run to completion, since the
cursor strictly increases on every iteration. -/
def findSlotsLoop (busy : List Iv) (dur endT : Int) :
    Nat → Int → List Iv → List Iv
  | 0, _, acc => acc
  | fuel + 1, cur, acc =>
    if cur + dur ≤ endT then
      match firstConflict busy cur (cur + dur) with
      | some b => findSlotsLoop busy dur endT fuel b.2 acc
      | none =>
        let acc2 := acc ++ [(cur, cur + dur)]
        if 5 ≤ acc2.length then acc2
        else findSlotsLoop busy dur endT fuel (cur + 30) acc2
    else acc

/-- Sufficient fuel for `findSlotsLoop`: one unit per possible integer
cursor position from `cur` up to the last one satisfying the loop
condition. -/
def slotFuel (dur endT cur : Int) : Nat := (endT - dur - cur + 1).toNat

/-- Python's stable sort of the busy periods by start time
(`busy_periods.sort(key=lambda x: x[0])`). -/
def sortBusy (busy : List Iv) : List Iv :=
  List.insertionSort (fun a b => a.1 ≤ b.1) busy

/-- Main search path of `TimeConverter.get_smart_alternative_times`,
parameterized by the busy periods extracted from the calendar for the
target day and by the midnight instant `dayStart` of the original request's
date. The business window is 09:00 to 18:00 local (minutes 540 to 1080 of
that day), and the first 3 collected slots are returned
(`available_slots[:3]`). -/
def get_smart_alternative_times (busy : List Iv) (dayStart dur : Int) :
    List Iv :=
  let bStart := dayStart + 540
  let bEnd := dayStart + 1080
  (findSlotsLoop (sortBusy busy) dur bEnd (slotFuel dur bEnd bStart) bStart []).take 3

end TimeUtils

namespace Planner

open CalendarApi

/-- One action of an action plan: `Action(service, method, params)`, with
the parameter keys the core reads and writes lifted to fields and the
remaining parameters kept opaque. -/
structure Action where
  service : Chars
  method : Chars
  summary : Option Chars
  start_time : Option Chars
  end_time : Option Chars
  check_for_conflicts : Option Bool
  other : List (Chars × Chars)
deriving DecidableEq

/-- One entry of the `conflicts` list built by
`validate_calendar_actions`. -/
structure ConflictEntry where
  action : Action
  conflicts : List CalEvent
  message : Chars
deriving DecidableEq

/-- The f-string `Event '{summary}' conflicts with {n} existing events`. -/
def conflictMessage (summaryP : Chars) (n : Nat) : Chars :=
  strOf "Event " ++ [squote] ++ summaryP ++ [squote] ++
    strOf " conflicts with " ++ natStr n ++ strOf " existing events"

/-- The in-place mutation `validate_calendar_actions` performs on a
calendar `create_event` action with truthy times: both time parameters are
rewritten through `_ensure_iso_format`; every other action and every other
field is left untouched. -/
def normalizeActionTimes (a : Action) : Action :=
  if a.service == strOf "calendar" && a.method == strOf "create_event" then
    if truthyOpt a.start_time && truthyOpt a.end_time then
      { a with start_time := some (formatOne (a.start_time.getD []))
               end_time := some (formatOne (a.end_time.getD [])) }
    else a
  else a

/-- `ActionPlanner.validate_calendar_actions`, parameterized by the
conflict-check collaborator. Returns the action list as left after the
in-place time normalization, together with the accumulated conflict
entries (`valid` is their emptiness). -/
def validate_calendar_actions (oracle : Chars → Chars → CheckResult) :
    List Action → List Action × List ConflictEntry
  | [] => ([], [])
  | a :: rest =>
    let r := validate_calendar_actions oracle rest
    if a.service == strOf "calendar" && a.method == strOf "create_event" then
      if truthyOpt a.start_time && truthyOpt a.end_time then
        let s := formatOne (a.start_time.getD [])
        let e := formatOne (a.end_time.getD [])
        let a2 := { a with start_time := some s, end_time := some e }
        let res := oracle s e
        if res.status == strOf "success" && res.has_conflicts then
          (a2 :: r.1,
           { action := a2
             conflicts := res.conflicts
             message := conflictMessage (a.summary.getD (strOf "Untitled Event"))
               res.conflicts.length } :: r.2)
        else (a2 :: r.1, r.2)
      else (a :: r.1, r.2)
    else (a :: r.1, r.2)

/-- One bullet line of the conflict details appended to the plan summary:
event title and start time. -/
def evtLine (ev : CalEvent) : Chars :=
  strOf "  • " ++ ev.summary ++ strOf " at " ++ ev.start ++ strOf "\n"

/-- The lines contributed by one conflicting action. -/
def entryLines (c : ConflictEntry) : Chars :=
  strOf "- " ++ c.message ++ strOf ":\n" ++ (c.conflicts.map evtLine).flatten

/-- The human-readable conflict summary `ActionPlanner.plan` appends to
`plan.summary` when validation reports conflicts. -/
def conflictDetails (cs : List ConflictEntry) : Chars :=
  strOf "\n\nPotential conflicts detected:\n" ++ (cs.map entryLines).flatten

/-- `ActionPlan(actions, summary, requires_verification)`. -/
structure ActionPlan where
  actions : List Action
  summary : Chars
  requires_verification : Bool
deriving DecidableEq

/-- The validation tail of `ActionPlanner.plan` (lines 141-167): given the
actions, summary and verification flag extracted from the LLM planning
result, run `validate_calendar_actions` when any calendar action is
present; on conflicts force `requires_verification` and append the conflict
details to the summary. -/
def planValidation (oracle : Chars → Chars → CheckResult)
    (actions : List Action) (summary : Chars) (requires_verification : Bool) :
    ActionPlan :=
  if (actions.filter (fun a => a.service == strOf "calendar")).isEmpty then
    { actions := actions, summary := summary
      requires_verification := requires_verification }
  else
    let v := validate_calendar_actions oracle actions
    if v.2.isEmpty then
      { actions := v.1, summary := summary
        requires_verification := requires_verification }
    else
      { actions := v.1, summary := summary ++ conflictDetails v.2
        requires_verification := true }

end Planner

namespace Dialog

open CalendarApi Planner

/-- The per-requester entry of `conversation_state`: the dictionary keys
used by the conflict-resolution dialog, with the empty dictionary
represented by `emptyState`. -/
structure ConvState where
  awaiting_verification : Bool
  awaiting_conflict_resolution : Bool
  conflicts : List CalEvent
  alternative_times : List (Chars × Chars)
  original_action : Option Action
deriving DecidableEq

/-- `conversation_state[sender_id] = {}`. -/
def emptyState : ConvState :=
  { awaiting_verification := false
    awaiting_conflict_resolution := false
    conflicts := []
    alternative_times := []
    original_action := none }

/-- The classified intent enum of the conflict-resolution LLM schema. -/
inductive RIntent where
  | rCancel
  | rOverride
  | rSuggested
  | rCustom
  | rUnclear
deriving DecidableEq

/-- The structured analysis returned by `llm_service.structured_generate`
in `handle_conflict_resolution`. -/
structure Analysis where
  intent : RIntent
  suggested_time_index : Option Int
  custom_time : Option Chars
deriving DecidableEq

/-- The observable outcome of a `service.execute` call: a success result,
a non-success result dictionary, or a raised exception. -/
inductive ExecOutcome where
  | success
  | failure (msg : Chars)
  | raised (msg : Chars)
deriving DecidableEq

/-- The messages `handle_conflict_resolution` and its helpers send to the
requester, one constructor per `whatsapp.send_message` call site. -/
inductive OutMsg where
  | lostTrack
  | classifyError
  | cancelled
  | createdAnyway
  | createFailed (m : Chars)
  | createError (m : Chars)
  | rescheduled
  | rescheduleFailed (m : Chars)
  | rescheduleError (m : Chars)
  | whichTime
  | menu
  | customStillConflicts (n : Nat)
  | cantParseTime
  | customError
deriving DecidableEq

/-- `reschedule_to_time`: rewrite the pending action's start and end,
disable its conflict check, execute it, and report the outcome. Exceptions
from the execute call are caught locally and turned into an error message;
they never propagate to the caller. -/
def reschedule_to_time (a : Action) (s e : Chars) (exec : ExecOutcome) :
    Action × OutMsg :=
  let a2 := { a with start_time := some s, end_time := some e
                     check_for_conflicts := some false }
  match exec with
  | .success => (a2, .rescheduled)
  | .failure m => (a2, .rescheduleFailed m)
  | .raised m => (a2, .rescheduleError m)

/-- `create_event_ignoring_conflicts`: disable the pending action's
conflict check and execute it; exceptions are caught locally. -/
def create_event_ignoring_conflicts (a : Action) (exec : ExecOutcome) :
    Action × OutMsg :=
  let a2 := { a with check_for_conflicts := some false }
  match exec with
  | .success => (a2, .createdAnyway)
  | .failure m => (a2, .createFailed m)
  | .raised m => (a2, .createError m)

/-- Result of one dialog step: the state left in
`conversation_state[sender_id]`, the messages sent, and the action passed
to `service.execute` when an execution was attempted. -/
structure StepResult where
  state : ConvState
  msgs : List OutMsg
  executed : Option Action
deriving DecidableEq

/-- Outcome of `handle_custom_reschedule`: an optional state overwrite (the
function only writes `conversation_state` when the custom time still
conflicts), the message sent, and the executed action if any. -/
structure CustomOutcome where
  stateUpdate : Option ConvState
  msg : OutMsg
  executed : Option Action
deriving DecidableEq

/-- `handle_custom_reschedule`, parameterized by the outcome of the
message-parser call (`.error` for a raised exception, `.ok none` when the
parsed entities lack the time fields) and the conflict check at the
custom time. When the custom time still conflicts, the state is overwritten
with the new conflict set and the custom slot as the only alternative;
otherwise the action is rescheduled to the parsed time. -/
def handle_custom_reschedule (a : Action)
    (parse : Except Chars (Option (Chars × Chars)))
    (customCheck : CheckResult) (exec : ExecOutcome) : CustomOutcome :=
  match parse with
  | .error _ => { stateUpdate := none, msg := .customError, executed := none }
  | .ok none => { stateUpdate := none, msg := .cantParseTime, executed := none }
  | .ok (some (s, e)) =>
    if customCheck.has_conflicts then
      { stateUpdate := some
          { awaiting_verification := false
            awaiting_conflict_resolution := true
            conflicts := customCheck.conflicts
            alternative_times := [(s, e)]
            original_action := some a }
        msg := .customStillConflicts customCheck.conflicts.length
        executed := none }
    else
      let r := reschedule_to_time a s e exec
      { stateUpdate := none, msg := r.2, executed := some r.1 }

/-- `handle_conflict_resolution`: one step of the conflict-resolution
dialog for a requester whose state is `st`. `classify` is the outcome of
the LLM classification (`.error` for a raised exception), `parse` and
`customCheck` feed the custom-reschedule path, `exec` is the outcome of
any attempted execution. The final `conversation_state[sender_id] = {}`
of the source runs exactly on the paths that do not return early. -/
def handle_conflict_resolution (st : ConvState)
    (classify : Except Chars Analysis)
    (parse : Except Chars (Option (Chars × Chars)))
    (customCheck : CheckResult) (exec : ExecOutcome) : StepResult :=
  match st.original_action with
  | none => { state := emptyState, msgs := [.lostTrack], executed := none }
  | some a =>
    match classify with
    | .error _ => { state := st, msgs := [.classifyError], executed := none }
    | .ok an =>
      match an.intent with
      | .rCancel => { state := emptyState, msgs := [.cancelled], executed := none }
      | .rOverride =>
        let r := create_event_ignoring_conflicts a exec
        { state := emptyState, msgs := [r.2], executed := some r.1 }
      | .rSuggested =>
        let i := an.suggested_time_index.getD 0
        if 0 ≤ i ∧ i < (st.alternative_times.length : Int) then
          let p := st.alternative_times.getD i.toNat ([], [])
          let r := reschedule_to_time a p.1 p.2 exec
          { state := emptyState, msgs := [r.2], executed := some r.1 }
        else
          { state := st, msgs := [.whichTime], executed := none }
      | .rCustom =>
        let r := handle_custom_reschedule a parse customCheck exec
        { state := r.stateUpdate.getD st, msgs := [r.msg], executed := r.executed }
      | .rUnclear => { state := st, msgs := [.menu], executed := none }

end Dialog

/-! ### Concrete data for the example runs -/

/-- A calendar create action with zone-less time parameters, as the LLM
planner emits them. -/
def c8Action : Planner.Action :=
  { service := strOf "calendar", method := strOf "create_event"
    summary := some (strOf "Sync")
    start_time := some (strOf "2025-05-23T14:00:00")
    end_time := some (strOf "2025-05-23T15:00:00")
    check_for_conflicts := none, other := [] }

/-- An existing event overlapping `c8Action`. -/
def c8Event : CalendarApi.CalEvent :=
  { id := strOf "e1", summary := strOf "Standup"
    start := strOf "2025-05-23T14:30:00Z", stop := strOf "2025-05-23T15:30:00Z" }

/-- A conflict-check collaborator that always reports `c8Event` as a
conflict. -/
def c8Oracle : Chars → Chars → CalendarApi.CheckResult :=
  fun _ _ =>
    { status := strOf "success", has_conflicts := true
      conflicts := [c8Event], count := 1 }

/-- The pending action of a negotiation in progress. -/
def c5Action : Planner.Action :=
  { service := strOf "calendar", method := strOf "create_event"
    summary := some (strOf "Meeting")
    start_time := some (strOf "2025-05-23T15:00:00+01:00")
    end_time := some (strOf "2025-05-23T16:00:00+01:00")
    check_for_conflicts := none, other := [] }

/-- A conversation state awaiting conflict resolution, with one stored
conflict and one offered alternative slot. -/
def c5State : Dialog.ConvState :=
  { awaiting_verification := false
    awaiting_conflict_resolution := true
    conflicts := [{ id := strOf "c1", summary := strOf "meeting"
                    start := strOf "2025-05-23T15:00:00+01:00"
                    stop := strOf "2025-05-23T16:00:00+01:00" }]
    alternative_times :=
      [(strOf "2025-05-23T09:00:00+01:00", strOf "2025-05-23T10:00:00+01:00")]
    original_action := some c5Action }

/-- A conversation state awaiting conflict resolution with two offered
alternatives, matching the spec's third example scenario. -/
def c6State : Dialog.ConvState :=
  { awaiting_verification := false
    awaiting_conflict_resolution := true
    conflicts := [{ id := strOf "c1", summary := strOf "meeting"
                    start := strOf "2025-05-23T15:00:00+01:00"
                    stop := strOf "2025-05-23T16:00:00+01:00" }]
    alternative_times :=
      [(strOf "2025-05-23T09:00:00+01:00", strOf "2025-05-23T10:00:00+01:00"),
       (strOf "2025-05-23T11:00:00+01:00", strOf "2025-05-23T12:00:00+01:00")]
    original_action := some c5Action }

/-- A neutral conflict check (used on paths that do not reach it). -/
def noConflictCheck : CalendarApi.CheckResult :=
  { status := strOf "success", has_conflicts := false, conflicts := [], count := 0 }

/-- A conflict check reporting one conflict at the custom time. -/
def c7Check : CalendarApi.CheckResult :=
  { status := strOf "success", has_conflicts := true
    conflicts := [{ id := strOf "c2", summary := strOf "standup"
                    start := strOf "2025-05-24T09:00:00+01:00"
                    stop := strOf "2025-05-24T10:00:00+01:00" }]
    count := 1 }

/-! ### Properties of the time normalizer -/

namespace CalendarApi

theorem endsWithZ_append_Z (s : Chars) : endsWithZ (s ++ ['Z']) = true := by
  simp [endsWithZ, List.getLast?_concat]

theorem formatOne_idem (s : Chars) : formatOne (formatOne s) = formatOne s := by
  by_cases h1 : hasTzMarker s
  · simp [formatOne, h1]
  · by_cases h2 : 'T' ∈ s
    · have hz : endsWithZ s = false := by
        unfold hasTzMarker at h1
        simp only [Bool.or_eq_true, not_or] at h1
        exact Bool.eq_false_iff.mpr h1.1.1
      have hout : formatOne s = s ++ ['Z'] := by
        simp [formatOne, h1, h2, hz]
      have hmk : hasTzMarker (s ++ ['Z']) = true := by
        simp [hasTzMarker, endsWithZ_append_Z]
      rw [hout]
      simp [formatOne, hmk]
    · simp [formatOne, h1, h2]

theorem formatOne_ne_nil (s : Chars) (h : s.isEmpty = false) :
    (formatOne s).isEmpty = false := by
  have hne : s ≠ [] := by cases s <;> simp_all
  by_cases h1 : hasTzMarker s
  · simpa [formatOne, h1]
  · by_cases h2 : 'T' ∈ s
    · by_cases h3 : endsWithZ s
      · simpa [formatOne, h1, h2, h3]
      · simp [formatOne, h1, h2, h3]
    · simpa [formatOne, h1, h2]

end CalendarApi

/-- C3: the time normalizer `_ensure_iso_format` is idempotent. For every
pair of time strings on which it succeeds, applying it a second time to its
own output returns the same pair unchanged. -/
theorem C3_normalize_idempotent (s e : Chars) (r : Chars × Chars)
    (h : CalendarApi.ensure_iso_format s e = .ok r) :
    CalendarApi.ensure_iso_format r.1 r.2 = .ok r := by
  by_cases hb : (s.isEmpty || e.isEmpty) = true
  · simp [CalendarApi.ensure_iso_format, hb] at h
  · have hse : s.isEmpty = false ∧ e.isEmpty = false := by
      constructor <;> (cases hcs : s.isEmpty <;> cases hce : e.isEmpty <;>
        simp_all)
    have hok : CalendarApi.ensure_iso_format s e =
        .ok (CalendarApi.formatOne s, CalendarApi.formatOne e) := by
      simp [CalendarApi.ensure_iso_format, hb]
    rw [hok] at h
    injection h with h2
    subst h2
    have hb2 : ((CalendarApi.formatOne s).isEmpty ||
        (CalendarApi.formatOne e).isEmpty) = false := by
      rw [CalendarApi.formatOne_ne_nil s hse.1, CalendarApi.formatOne_ne_nil e hse.2]
      rfl
    simp [CalendarApi.ensure_iso_format, hb2, CalendarApi.formatOne_idem]

/-- Witness for C3 at a concrete already-unzoned input. -/
theorem C3_normalize_idempotent_witness :
    CalendarApi.ensure_iso_format
      (strOf "2025-05-23T14:00:00Z") (strOf "2025-05-23T15:00:00Z") =
      .ok (strOf "2025-05-23T14:00:00Z", strOf "2025-05-23T15:00:00Z") :=
  C3_normalize_idempotent (strOf "2025-05-23T14:00:00") (strOf "2025-05-23T15:00:00")
    (strOf "2025-05-23T14:00:00Z", strOf "2025-05-23T15:00:00Z") (by decide)

/-- C4 counterexample: the normalizer performs no parsing at all, so a
non-empty input that is unparseable as a time (here a digit-free word)
does not raise: it is returned as a successful result, contradicting the
claim that unparseable input fails with an exception. -/
theorem C4_counterexample :
    CalendarApi.ensure_iso_format (strOf "hello") (strOf "world") =
      .ok (strOf "hello", strOf "world") ∧
    (∀ c ∈ strOf "hello", ¬ c.isDigit) ∧ (∀ c ∈ strOf "world", ¬ c.isDigit) ∧
    (strOf "hello").isEmpty = false ∧ (strOf "world").isEmpty = false := by
  decide

/-- C4 amended: `_ensure_iso_format` raises exactly when either input
string is empty; it performs no parse validation, so every non-empty pair
(parseable or not) is returned as a result. -/
theorem C4_raises_iff_empty (s e : Chars) :
    (∃ msg, CalendarApi.ensure_iso_format s e = .error msg) ↔
      (s.isEmpty = true ∨ e.isEmpty = true) := by
  constructor
  · rintro ⟨m, hm⟩
    by_cases hb : s.isEmpty || e.isEmpty
    · simpa using hb
    · simp [CalendarApi.ensure_iso_format, hb] at hm
  · intro h
    have hb : (s.isEmpty || e.isEmpty) = true := by
      rcases h with h | h <;> simp [h]
    exact ⟨strOf "Both start_time and end_time must be provided",
      by simp [CalendarApi.ensure_iso_format, hb]⟩

/-- Witness for C4 amended: the empty start string makes the normalizer
raise. -/
theorem C4_raises_iff_empty_witness :
    ∃ msg, CalendarApi.ensure_iso_format [] (strOf "2025-05-23") = .error msg :=
  (C4_raises_iff_empty [] (strOf "2025-05-23")).mpr (by decide)

/-- C10: `create_event` is atomic on conflict. With conflict checking
requested, a successful conflict check reporting conflicts makes
`create_event` return a conflict-status result carrying that conflict
list, and the calendar insert is never reached. -/
theorem C10_create_event_atomic_on_conflict (check : CalendarApi.CheckResult)
    (ins : CalendarApi.InsertOutcome) (s e : Chars)
    (hs : check.status = strOf "success") (hc : check.has_conflicts = true) :
    CalendarApi.create_event true check ins s e =
      .ok { status := strOf "conflict"
            message := strOf "Found " ++ natStr check.count ++
              strOf " conflicting events in the specified time range"
            conflicts := check.conflicts
            insertAttempted := false } := by
  simp [CalendarApi.create_event, hs, hc]

/-- Witness for C10 at a concrete conflicting check result. -/
theorem C10_create_event_atomic_on_conflict_witness :
    CalendarApi.create_event true
      { status := strOf "success", has_conflicts := true
        conflicts := [{ id := strOf "e1", summary := strOf "Standup"
                        start := strOf "2025-05-23T14:30:00Z"
                        stop := strOf "2025-05-23T15:30:00Z" }]
        count := 1 }
      (.fail (strOf "network down"))
      (strOf "2025-05-23T14:00:00Z") (strOf "2025-05-23T15:00:00Z") =
      .ok { status := strOf "conflict"
            message := strOf "Found 1 conflicting events in the specified time range"
            conflicts := [{ id := strOf "e1", summary := strOf "Standup"
                            start := strOf "2025-05-23T14:30:00Z"
                            stop := strOf "2025-05-23T15:30:00Z" }]
            insertAttempted := false } :=
  C10_create_event_atomic_on_conflict
    { status := strOf "success", has_conflicts := true
      conflicts := [{ id := strOf "e1", summary := strOf "Standup"
                      start := strOf "2025-05-23T14:30:00Z"
                      stop := strOf "2025-05-23T15:30:00Z" }]
      count := 1 }
    (.fail (strOf "network down"))
    (strOf "2025-05-23T14:00:00Z") (strOf "2025-05-23T15:00:00Z") rfl rfl

/-! ### Properties of the free-slot search -/

namespace TimeUtils

theorem firstConflict_eq_none_iff (busy : List Iv) (s e : Int) :
    firstConflict busy s e = none ↔ ∀ b ∈ busy, overlapsBusy b s e = false := by
  simp [firstConflict, List.find?_eq_none]

/-- Every slot produced by the loop, beyond those already in the
accumulator, overlaps no busy period. -/
theorem findSlotsLoop_no_overlap (busy : List Iv) (dur endT : Int) :
    ∀ (fuel : Nat) (cur : Int) (acc : List Iv),
      (∀ p ∈ acc, ∀ b ∈ busy, overlapsBusy b p.1 p.2 = false) →
      ∀ p ∈ findSlotsLoop busy dur endT fuel cur acc,
        ∀ b ∈ busy, overlapsBusy b p.1 p.2 = false := by
  intro fuel
  induction fuel with
  | zero => intro cur acc hacc; simpa [findSlotsLoop] using hacc
  | succ n ih =>
    intro cur acc hacc p hp b hb
    rw [findSlotsLoop] at hp
    by_cases hcond : cur + dur ≤ endT
    · simp only [hcond, if_true] at hp
      cases hfc : firstConflict busy cur (cur + dur) with
      | some bc =>
        rw [hfc] at hp
        exact ih bc.2 acc hacc p hp b hb
      | none =>
        rw [hfc] at hp
        have hfree : ∀ b ∈ busy, overlapsBusy b cur (cur + dur) = false :=
          (firstConflict_eq_none_iff busy cur (cur + dur)).mp hfc
        have hacc2 : ∀ p ∈ acc ++ [(cur, cur + dur)],
            ∀ b ∈ busy, overlapsBusy b p.1 p.2 = false := by
          intro q hq b' hb'
          rcases List.mem_append.mp hq with hq | hq
          · exact hacc q hq b' hb'
          · rcases List.mem_singleton.mp hq with rfl
            exact hfree b' hb'
        by_cases hlen : 5 ≤ (acc ++ [(cur, cur + dur)]).length
        · simp only [hlen, if_true] at hp
          exact hacc2 p hp b hb
        · simp only [hlen, if_false] at hp
          exact ih (cur + 30) _ hacc2 p hp b hb
    · simp only [hcond, if_false] at hp
      exact hacc p hp b hb

/-- Starts recorded by the loop are strictly increasing, provided the
accumulator already is and sits strictly below the cursor. -/
theorem findSlotsLoop_sorted (busy : List Iv) (dur endT : Int) :
    ∀ (fuel : Nat) (cur : Int) (acc : List Iv),
      List.Pairwise (fun p q : Iv => p.1 < q.1) acc →
      (∀ p ∈ acc, p.1 < cur) →
      List.Pairwise (fun p q : Iv => p.1 < q.1)
        (findSlotsLoop busy dur endT fuel cur acc) := by
  intro fuel
  induction fuel with
  | zero => intro cur acc hacc _; simpa [findSlotsLoop] using hacc
  | succ n ih =>
    intro cur acc hacc hlt
    rw [findSlotsLoop]
    by_cases hcond : cur + dur ≤ endT
    · simp only [hcond, if_true]
      cases hfc : firstConflict busy cur (cur + dur) with
      | some bc =>
        have hcur : cur < bc.2 := by
          have := List.find?_some hfc
          simp only [overlapsBusy, Bool.and_eq_true, decide_eq_true_eq] at this
          exact this.1
        exact ih bc.2 acc hacc (fun p hp => lt_trans (hlt p hp) hcur)
      | none =>
        have hacc2 : List.Pairwise (fun p q : Iv => p.1 < q.1)
            (acc ++ [(cur, cur + dur)]) := by
          rw [List.pairwise_append]
          refine ⟨hacc, List.pairwise_singleton _ _, ?_⟩
          intro p hp q hq
          rcases List.mem_singleton.mp hq with rfl
          exact hlt p hp
        by_cases hlen : 5 ≤ (acc ++ [(cur, cur + dur)]).length
        · simpa only [hlen, if_true] using hacc2
        · simp only [hlen, if_false]
          refine ih (cur + 30) _ hacc2 ?_
          intro p hp
          rcases List.mem_append.mp hp with hp | hp
          · exact lt_trans (hlt p hp) (by omega)
          · rcases List.mem_singleton.mp hp with rfl
            omega
    · simpa only [hcond, if_false] using hacc

end TimeUtils

/-- C1: no slot returned by the smart alternative-time search overlaps any
busy interval of the list it was produced from, under the overlap predicate
of the code (busy `b` conflicts with candidate `[s,e)` iff
`b.start < e` and `b.end > s`; touching boundaries are free). -/
theorem C1_no_overlap (busy : List TimeUtils.Iv) (dayStart dur : Int)
    (p : TimeUtils.Iv)
    (hp : p ∈ TimeUtils.get_smart_alternative_times busy dayStart dur)
    (b : TimeUtils.Iv) (hb : b ∈ busy) :
    TimeUtils.overlapsBusy b p.1 p.2 = false := by
  have hmem : p ∈ TimeUtils.findSlotsLoop (TimeUtils.sortBusy busy) dur
      (dayStart + 1080)
      (TimeUtils.slotFuel dur (dayStart + 1080) (dayStart + 540))
      (dayStart + 540) [] :=
    List.mem_of_mem_take (by simpa [TimeUtils.get_smart_alternative_times] using hp)
  have hb2 : b ∈ TimeUtils.sortBusy busy :=
    (List.perm_insertionSort _ busy).mem_iff.mpr hb
  exact TimeUtils.findSlotsLoop_no_overlap (TimeUtils.sortBusy busy) dur
    (dayStart + 1080) _ _ [] (by simp) p hmem b hb2

/-- Witness for C1: with a 10:00-11:00 busy interval on the day starting at
minute 0, the slot 09:00-09:30 is returned and does not overlap it. -/
theorem C1_no_overlap_witness :
    ((540 : Int), (570 : Int)) ∈
      TimeUtils.get_smart_alternative_times [((600 : Int), (660 : Int))] 0 30 ∧
    TimeUtils.overlapsBusy ((600 : Int), (660 : Int)) 540 570 = false :=
  ⟨by decide, C1_no_overlap [((600 : Int), (660 : Int))] 0 30
    ((540 : Int), (570 : Int)) (by decide) ((600 : Int), (660 : Int)) (by decide)⟩

/-- C2: the search returns at most 3 slots, and on the spec's example
(busy 10:00-11:00, duration 30 minutes, business window 09:00-18:00 with
30-minute steps and a jump to the busy end on conflict) it returns exactly
09:00-09:30, 09:30-10:00 and 11:00-11:30. -/
theorem C2_example_and_bound :
    (∀ (busy : List TimeUtils.Iv) (dayStart dur : Int),
      (TimeUtils.get_smart_alternative_times busy dayStart dur).length ≤ 3) ∧
    TimeUtils.get_smart_alternative_times [((600 : Int), (660 : Int))] 0 30 =
      [(540, 570), (570, 600), (660, 690)] := by
  constructor
  · intro busy dayStart dur
    exact le_trans (Nat.le_of_eq (List.length_take _ _)) (min_le_left _ _)
  · decide

/-- C9: the slots returned by the free-slot search are strictly increasing
by start time, hence contain no duplicate start times. -/
theorem C9_strictly_increasing (busy : List TimeUtils.Iv) (dayStart dur : Int) :
    List.Pairwise (fun p q : TimeUtils.Iv => p.1 < q.1)
      (TimeUtils.get_smart_alternative_times busy dayStart dur) := by
  have h := TimeUtils.findSlotsLoop_sorted (TimeUtils.sortBusy busy) dur
    (dayStart + 1080)
    (TimeUtils.slotFuel dur (dayStart + 1080) (dayStart + 540))
    (dayStart + 540) [] (List.Pairwise.nil) (by simp)
  simpa [TimeUtils.get_smart_alternative_times] using
    h.sublist (List.take_sublist _ _)

/-! ### Properties of plan validation -/

/-- A list with no calendar actions yields no conflict entries. -/
theorem validate_conflicts_nil_of_no_calendar
    (oracle : Chars → Chars → CalendarApi.CheckResult)
    (actions : List Planner.Action)
    (h : actions.filter (fun a => a.service == strOf "calendar") = []) :
    (Planner.validate_calendar_actions oracle actions).2 = [] := by
  induction actions with
  | nil => rfl
  | cons a rest ih =>
    rw [List.filter_cons] at h
    by_cases hs : (a.service == strOf "calendar") = true
    · simp [hs] at h
    · have hrest : rest.filter (fun a => a.service == strOf "calendar") = [] := by
        simpa [hs] using h
      have hg : (a.service == strOf "calendar" &&
          a.method == strOf "create_event") = false := by
        simp [Bool.eq_false_iff.mpr hs]
      rw [Planner.validate_calendar_actions]
      simp only [hg, Bool.false_eq_true, if_false]
      exact ih hrest

/-- The action list left behind by `validate_calendar_actions` is the input
list with exactly the time-normalization mutation applied to each calendar
`create_event` action. -/
theorem validate_fst_eq_map (oracle : Chars → Chars → CalendarApi.CheckResult)
    (actions : List Planner.Action) :
    (Planner.validate_calendar_actions oracle actions).1 =
      actions.map Planner.normalizeActionTimes := by
  induction actions with
  | nil => rfl
  | cons a rest ih =>
    rw [Planner.validate_calendar_actions, List.map_cons]
    by_cases h1 : (a.service == strOf "calendar" &&
        a.method == strOf "create_event") = true
    · by_cases h2 : (truthyOpt a.start_time && truthyOpt a.end_time) = true
      · simp only [h1, h2, if_true, Planner.normalizeActionTimes]
        split <;> simp [ih, h1, h2]
      · simp [Planner.normalizeActionTimes, h1, h2, ih]
    · simp [Planner.normalizeActionTimes, h1, ih]

/-- C8 counterexample: validating a plan whose calendar action carries
zone-less times and whose conflict check reports a conflict does set the
verification flag, but it also rewrites the action's time parameters
(appending the `Z` zone marker), so the returned plan does not contain
exactly the same actions with the same parameters. -/
theorem C8_counterexample :
    (Planner.planValidation c8Oracle [c8Action]
      (strOf "Create Sync") false).requires_verification = true ∧
    (Planner.planValidation c8Oracle [c8Action]
      (strOf "Create Sync") false).actions ≠ [c8Action] := by
  decide

/-- C8 amended: when validation reports conflicts, the plan's verification
flag is forced on and the conflict details (event titles and start times)
are appended to the summary; no action is dropped, and each action is
returned unchanged except that the time parameters of calendar
`create_event` actions are normalized through `_ensure_iso_format`. -/
theorem C8_amended_validation (oracle : Chars → Chars → CalendarApi.CheckResult)
    (actions : List Planner.Action) (summary : Chars) (rv : Bool)
    (hconf : (Planner.validate_calendar_actions oracle actions).2 ≠ []) :
    (Planner.planValidation oracle actions summary rv).requires_verification = true ∧
    (Planner.planValidation oracle actions summary rv).summary =
      summary ++ Planner.conflictDetails
        (Planner.validate_calendar_actions oracle actions).2 ∧
    (Planner.planValidation oracle actions summary rv).actions =
      actions.map Planner.normalizeActionTimes ∧
    (Planner.planValidation oracle actions summary rv).actions.length =
      actions.length ∧
    ∀ a : Planner.Action,
      (Planner.normalizeActionTimes a).service = a.service ∧
      (Planner.normalizeActionTimes a).method = a.method ∧
      (Planner.normalizeActionTimes a).summary = a.summary ∧
      (Planner.normalizeActionTimes a).check_for_conflicts = a.check_for_conflicts ∧
      (Planner.normalizeActionTimes a).other = a.other := by
  have hfil : (actions.filter (fun a => a.service == strOf "calendar")).isEmpty = false := by
    cases hf : actions.filter (fun a => a.service == strOf "calendar") with
    | nil => exact absurd (validate_conflicts_nil_of_no_calendar oracle actions hf) hconf
    | cons x xs => rfl
  have hvne : (Planner.validate_calendar_actions oracle actions).2.isEmpty = false := by
    cases hv : (Planner.validate_calendar_actions oracle actions).2 with
    | nil => exact absurd hv hconf
    | cons x xs => rfl
  refine ⟨?_, ?_, ?_, ?_, ?_⟩
  · simp [Planner.planValidation, hfil, hvne]
  · simp [Planner.planValidation, hfil, hvne]
  · simp [Planner.planValidation, hfil, hvne, validate_fst_eq_map]
  · simp [Planner.planValidation, hfil, hvne, validate_fst_eq_map]
  · intro a
    unfold Planner.normalizeActionTimes
    split <;> [skip; simp]
    split <;> simp

/-- Witness for C8 amended at the concrete one-action plan. -/
theorem C8_amended_validation_witness :
    (Planner.planValidation c8Oracle [c8Action]
      (strOf "Create Sync") false).requires_verification = true ∧
    (Planner.planValidation c8Oracle [c8Action]
      (strOf "Create Sync") false).actions =
      [c8Action].map Planner.normalizeActionTimes :=
  ⟨(C8_amended_validation c8Oracle [c8Action] (strOf "Create Sync") false
      (by decide)).1,
   (C8_amended_validation c8Oracle [c8Action] (strOf "Create Sync") false
      (by decide)).2.2.1⟩

/-! ### Properties of the conflict-resolution dialog -/

/-- The action passed to `service.execute` by `reschedule_to_time` is the
pending action with its times rewritten and its conflict check disabled,
whatever the execution outcome. -/
theorem reschedule_to_time_fst (a : Planner.Action) (s e : Chars)
    (exec : Dialog.ExecOutcome) :
    (Dialog.reschedule_to_time a s e exec).1 =
      { a with start_time := some s, end_time := some e
               check_for_conflicts := some false } := by
  cases exec <;> rfl

/-- C5 (demonstrating the divergence): when the requester picks suggested
slot 0 and the rescheduling execute call raises, the error is surfaced as a
message, but the conversation state is cleared to the empty dictionary
rather than retained, because `reschedule_to_time` swallows the exception
and `handle_conflict_resolution` then reaches its final
`conversation_state[sender_id] = {}`. -/
theorem C5_state_cleared_on_failed_execution :
    Dialog.handle_conflict_resolution c5State
      (.ok { intent := .rSuggested, suggested_time_index := some 0
             custom_time := none })
      (.ok none) noConflictCheck
      (.raised (strOf "503 Service Unavailable")) =
      { state := Dialog.emptyState
        msgs := [.rescheduleError (strOf "503 Service Unavailable")]
        executed := some { c5Action with
          start_time := some (strOf "2025-05-23T09:00:00+01:00")
          end_time := some (strOf "2025-05-23T10:00:00+01:00")
          check_for_conflicts := some false } } := by
  decide

/-- C6: on `reschedule_to_suggested(i)` with a stored pending action, an
in-range index rewrites the pending action's start and end to the chosen
alternative, executes it with conflict checking disabled, and clears the
state back to Idle; an out-of-range index only re-prompts, leaving the
state (mode, pending action, conflicts, alternatives) untouched. -/
theorem C6_reschedule_to_suggested (st : Dialog.ConvState) (a : Planner.Action)
    (an : Dialog.Analysis) (i : Int)
    (parse : Except Chars (Option (Chars × Chars)))
    (customCheck : CalendarApi.CheckResult) (exec : Dialog.ExecOutcome)
    (ha : st.original_action = some a)
    (hint : an.intent = .rSuggested)
    (hidx : an.suggested_time_index = some i) :
    (0 ≤ i ∧ i < (st.alternative_times.length : Int) →
      Dialog.handle_conflict_resolution st (.ok an) parse customCheck exec =
        { state := Dialog.emptyState
          msgs := [(Dialog.reschedule_to_time a
            (st.alternative_times.getD i.toNat ([], [])).1
            (st.alternative_times.getD i.toNat ([], [])).2 exec).2]
          executed := some { a with
            start_time := some (st.alternative_times.getD i.toNat ([], [])).1
            end_time := some (st.alternative_times.getD i.toNat ([], [])).2
            check_for_conflicts := some false } }) ∧
    (¬ (0 ≤ i ∧ i < (st.alternative_times.length : Int)) →
      Dialog.handle_conflict_resolution st (.ok an) parse customCheck exec =
        { state := st, msgs := [.whichTime], executed := none }) := by
  constructor
  · intro h
    simp only [Dialog.handle_conflict_resolution, ha, hint, hidx, Option.getD_some]
    rw [if_pos h]
    simp [reschedule_to_time_fst]
  · intro h
    simp only [Dialog.handle_conflict_resolution, ha, hint, hidx, Option.getD_some]
    rw [if_neg h]

/-- Witness for C6 at the spec's scenario: two alternatives, index 0 chosen
and executed successfully, plus the out-of-range re-prompt at index 5. -/
theorem C6_reschedule_to_suggested_witness :
    (Dialog.handle_conflict_resolution c6State
      (.ok { intent := .rSuggested, suggested_time_index := some 0
             custom_time := none })
      (.ok none) noConflictCheck .success =
      { state := Dialog.emptyState
        msgs := [.rescheduled]
        executed := some { c5Action with
          start_time := some (strOf "2025-05-23T09:00:00+01:00")
          end_time := some (strOf "2025-05-23T10:00:00+01:00")
          check_for_conflicts := some false } }) ∧
    (Dialog.handle_conflict_resolution c6State
      (.ok { intent := .rSuggested, suggested_time_index := some 5
             custom_time := none })
      (.ok none) noConflictCheck .success =
      { state := c6State, msgs := [.whichTime], executed := none }) :=
  ⟨(C6_reschedule_to_suggested c6State c5Action
      { intent := .rSuggested, suggested_time_index := some 0, custom_time := none }
      0 (.ok none) noConflictCheck .success rfl rfl rfl).1 (by decide),
   (C6_reschedule_to_suggested c6State c5Action
      { intent := .rSuggested, suggested_time_index := some 5, custom_time := none }
      5 (.ok none) noConflictCheck .success rfl rfl rfl).2 (by decide)⟩

/-- C7: on `reschedule_to_custom` whose parsed time still conflicts, the
state stays in conflict-resolution mode with the stored conflicts and
alternatives replaced wholesale by the new conflict data (the new conflict
list and the custom slot), while the pending action is retained; nothing is
executed. -/
theorem C7_custom_time_still_conflicts (st : Dialog.ConvState)
    (a : Planner.Action) (an : Dialog.Analysis) (s e : Chars)
    (parse : Except Chars (Option (Chars × Chars)))
    (customCheck : CalendarApi.CheckResult) (exec : Dialog.ExecOutcome)
    (ha : st.original_action = some a)
    (hint : an.intent = .rCustom)
    (hparse : parse = .ok (some (s, e)))
    (hconf : customCheck.has_conflicts = true) :
    Dialog.handle_conflict_resolution st (.ok an) parse customCheck exec =
      { state := { awaiting_verification := false
                   awaiting_conflict_resolution := true
                   conflicts := customCheck.conflicts
                   alternative_times := [(s, e)]
                   original_action := some a }
        msgs := [.customStillConflicts customCheck.conflicts.length]
        executed := none } := by
  simp [Dialog.handle_conflict_resolution, Dialog.handle_custom_reschedule,
    ha, hint, hparse, hconf]

/-- Witness for C7: a custom time that still conflicts replaces the stored
conflict data and keeps the dialog pending. -/
theorem C7_custom_time_still_conflicts_witness :
    Dialog.handle_conflict_resolution c5State
      (.ok { intent := .rCustom, suggested_time_index := none
             custom_time := some (strOf "tomorrow 9am") })
      (.ok (some (strOf "2025-05-24T09:00:00+01:00",
                  strOf "2025-05-24T10:00:00+01:00")))
      c7Check .success =
      { state := { awaiting_verification := false
                   awaiting_conflict_resolution := true
                   conflicts := c7Check.conflicts
                   alternative_times :=
                     [(strOf "2025-05-24T09:00:00+01:00",
                       strOf "2025-05-24T10:00:00+01:00")]
                   original_action := some c5Action }
        msgs := [.customStillConflicts c7Check.conflicts.length]
        executed := none } :=
  C7_custom_time_still_conflicts c5State c5Action
    { intent := .rCustom, suggested_time_index := none
      custom_time := some (strOf "tomorrow 9am") }
    (strOf "2025-05-24T09:00:00+01:00") (strOf "2025-05-24T10:00:00+01:00")
    (.ok (some (strOf "2025-05-24T09:00:00+01:00",
                strOf "2025-05-24T10:00:00+01:00")))
    c7Check .success rfl rfl rfl rfl

/-! ### The fuel supplied to the slot-search loop is sufficient -/

namespace TimeUtils

/-- Adding one unit of fuel beyond `slotFuel` does not change the result:
the loop condition fails before the fuel can run out, because the cursor
strictly increases on every iteration. -/
theorem findSlotsLoop_fuel_stable (busy : List Iv) (dur endT : Int) :
    ∀ (fuel : Nat) (cur : Int) (acc : List Iv),
      slotFuel dur endT cur ≤ fuel →
      findSlotsLoop busy dur endT (fuel + 1) cur acc =
        findSlotsLoop busy dur endT fuel cur acc := by
  intro fuel
  induction fuel with
  | zero =>
    intro cur acc hf
    have hcond : ¬ cur + dur ≤ endT := by
      simp only [slotFuel, Nat.le_zero, Int.toNat_eq_zero] at hf
      omega
    simp only [findSlotsLoop]
    rw [if_neg hcond]
  | succ n ih =>
    intro cur acc hf
    rw [findSlotsLoop]
    conv_rhs => rw [findSlotsLoop]
    by_cases hcond : cur + dur ≤ endT
    · simp only [hcond, if_true]
      have hpos : 1 ≤ slotFuel dur endT cur := by
        simp only [slotFuel]
        omega
      cases hfc : firstConflict busy cur (cur + dur) with
      | some bc =>
        have hcur : cur < bc.2 := by
          have := List.find?_some hfc
          simp only [overlapsBusy, Bool.and_eq_true, decide_eq_true_eq] at this
          exact this.1
        exact ih bc.2 acc (by simp only [slotFuel] at hf ⊢; omega)
      | none =>
        by_cases hlen : 5 ≤ (acc ++ [(cur, cur + dur)]).length
        · simp only [hlen, if_true]
        · simp only [hlen, if_false]
          exact ih (cur + 30) _ (by simp only [slotFuel] at hf ⊢; omega)
    · simp only [hcond, if_false]

/-- Any fuel beyond `slotFuel` yields the same result as `slotFuel` itself:
the embedded loop computes the same list the unbounded `while` loop of the
source does. -/
theorem findSlotsLoop_fuel_irrelevant (busy : List Iv) (dur endT : Int)
    (cur : Int) (acc : List Iv) (k : Nat) :
    findSlotsLoop busy dur endT (slotFuel dur endT cur + k) cur acc =
      findSlotsLoop busy dur endT (slotFuel dur endT cur) cur acc := by
  induction k with
  | zero => rfl
  | succ n ih =>
    rw [← ih]
    exact findSlotsLoop_fuel_stable busy dur endT (slotFuel dur endT cur + n)
      cur acc (Nat.le_add_right _ _)

end TimeUtils
